import Mathlib

/-!
# Verification of the `armalloc` memory-arena subsystem

The arena (`mem`) subsystem emulates a process-break interface over a
fixed-size region.  Its public operations are `mem_init`, `mem_sbrk`,
`mem_deinit`, three read accessors, and the process-wide error indicator
`mm_errno`.  The arena implementation itself lives in an assembly file
(`src/mem.s`) that is referenced by the headers and tests but is not part
of the C sources; every operation below is therefore modelled from the
specification, checked for consistency against the observable behaviour
pinned down by the test suites (`tests/mem_test.c`, `tests/test_mem.c`)
and the headers (`include/mem.h`, `include/mm_errno.h`).

Addresses are modelled as natural numbers below `2^64`; the failure
sentinel of `mem_sbrk` is the all-ones pointer `2^64 - 1` (the cast of
`-1` to a pointer).  The diagnostic sink is modelled as a list of lines.
-/

namespace Armalloc

/-- Error-indicator values, from `include/mm_errno.h`. -/
def MM_ERR_NONE : Nat := 0

/-- `MM_ERR_NOMEM`: memory allocation failed due to insufficient space. -/
def MM_ERR_NOMEM : Nat := 1

/-- `MM_ERR_INVAL`: an invalid argument was passed to a memory routine. -/
def MM_ERR_INVAL : Nat := 2

/-- `MM_ERR_ALIGN`: memory alignment error. -/
def MM_ERR_ALIGN : Nat := 3

/-- `MM_ERR_CORRUPT`: heap corruption detected. -/
def MM_ERR_CORRUPT : Nat := 4

/-- `MM_ERR_INTERNAL`: internal allocator error (wrong lifecycle state). -/
def MM_ERR_INTERNAL : Nat := 5

/-- Width of a machine pointer in bits (64-bit host). -/
def PTR_BITS : Nat := 64

/-- `MEM_SBRK_FAILED`, from `include/mem.h`: `((void *)-1)`, i.e. the
all-ones 64-bit pointer. -/
def MEM_SBRK_FAILED : Nat := 2 ^ PTR_BITS - 1

/-- Host page size assumed by the tests (4096 bytes). -/
def PAGE_SIZE : Nat := 4096

/-- Round `n` up to the next multiple of the page size (the spec permits
the acquired region to be page-rounded up). -/
def roundUpPage (n : Nat) : Nat := (n + (PAGE_SIZE - 1)) / PAGE_SIZE * PAGE_SIZE

/-- The arena region when initialized: `heap_start` is the first byte,
`brk` the current break, `heap_end` one past the last reservable byte. -/
structure Region where
  heap_start : Nat
  brk : Nat
  heap_end : Nat
deriving Repr, DecidableEq

/-- Modelled from the spec: the process-wide state the arena subsystem
touches — the (possibly absent) region triple, the error indicator
`mm_errno`, and the diagnostic sink (a list of emitted lines). -/
structure MemState where
  region : Option Region
  mm_errno : Nat
  diag : List String
deriving Repr, DecidableEq

/-- The process state before any arena call: uninitialized, error
indicator `NONE`, no diagnostics. -/
def initialMemState : MemState :=
  { region := none, mm_errno := MM_ERR_NONE, diag := [] }

/-- The single diagnostic line written on `mem_init` with non-positive
size (the spec fixes only the literal substring it must contain). -/
def arenaSizeDiagLine : String := "arena size must be > 0"

/-- `hasSubstr s sub` holds when `sub` occurs literally inside `s`. -/
def hasSubstr (s sub : String) : Prop := ∃ a b, s = a ++ sub ++ b

/-- Modelled from the spec: `mem_init(size)` (implemented in the missing
`src/mem.s`).  `size` is taken as the signed reading of the `size_t`
argument, since the tests pass `-1`/`-4096` and expect the "must be > 0"
failure.  Fails with `INTERNAL` if already initialized; fails with
`INVAL` and one diagnostic line if `size ≤ 0`; otherwise acquires a
page-rounded region at host-chosen base `base`, sets
`heap_start = brk = base`, `heap_end = base + acquired`, and clears the
error indicator.  Returns `0` on success, `-1` on failure. -/
def mem_init (base : Nat) (size : Int) (s : MemState) : Int × MemState :=
  match s.region with
  | some _ => (-1, { s with mm_errno := MM_ERR_INTERNAL })
  | none =>
    if size ≤ 0 then
      (-1, { s with mm_errno := MM_ERR_INVAL,
                    diag := s.diag ++ [arenaSizeDiagLine] })
    else
      (0, { region := some { heap_start := base, brk := base,
                             heap_end := base + roundUpPage size.toNat },
            mm_errno := MM_ERR_NONE,
            diag := s.diag })

/-- Modelled from the spec: `mem_sbrk(increment)` (implemented in the
missing `src/mem.s`).  If uninitialized, fails with `INTERNAL`.
Otherwise let `candidate := brk + increment` (signed add): if
`candidate < heap_start`, fails with `INVAL`; if `candidate ≥ heap_end`
and `increment ≠ 0`, fails with `NOMEM` (exclusive upper bound, the
variant checked by `tests/mem_test.c`); otherwise returns the pre-call
break and sets `brk := candidate`.  Failure returns `MEM_SBRK_FAILED`
and leaves the break unchanged. -/
def mem_sbrk (increment : Int) (s : MemState) : Nat × MemState :=
  match s.region with
  | none => (MEM_SBRK_FAILED, { s with mm_errno := MM_ERR_INTERNAL })
  | some r =>
    if (r.brk : Int) + increment < (r.heap_start : Int) then
      (MEM_SBRK_FAILED, { s with mm_errno := MM_ERR_INVAL })
    else if (r.heap_end : Int) ≤ (r.brk : Int) + increment ∧ increment ≠ 0 then
      (MEM_SBRK_FAILED, { s with mm_errno := MM_ERR_NOMEM })
    else
      (r.brk, { s with region := some { r with brk := ((r.brk : Int) + increment).toNat } })

/-- Modelled from the spec: `mem_deinit()` (implemented in the missing
`src/mem.s`).  Idempotent: releases the region if present, clears all
three arena fields to absent, leaves the error indicator unchanged, and
returns `0`. -/
def mem_deinit (s : MemState) : Int × MemState :=
  (0, { s with region := none })

/-- Accessor `get_mem_heap_start`: `heap_start`, absent (NULL) when
uninitialized. -/
def get_mem_heap_start (s : MemState) : Option Nat :=
  s.region.map Region.heap_start

/-- Accessor `get_mem_brk`: the current break, absent (NULL) when
uninitialized. -/
def get_mem_brk (s : MemState) : Option Nat :=
  s.region.map Region.brk

/-- Accessor `get_mem_heap_end`: `heap_end`, absent (NULL) when
uninitialized. -/
def get_mem_heap_end (s : MemState) : Option Nat :=
  s.region.map Region.heap_end

/-- `get_mm_errno` from `mm_errno.h`. -/
def get_mm_errno (s : MemState) : Nat := s.mm_errno

/-- `set_mm_errno` from `mm_errno.h`. -/
def set_mm_errno (v : Nat) (s : MemState) : MemState := { s with mm_errno := v }

/-- A public arena operation, for reasoning about reachable states:
`init` carries the host-chosen base address of the acquired region. -/
inductive MemOp where
  | init (base : Nat) (size : Int)
  | sbrk (increment : Int)
  | deinit
deriving Repr, DecidableEq

/-- The state after running one public arena operation. -/
def stepOp (op : MemOp) (s : MemState) : MemState :=
  match op with
  | .init base size => (mem_init base size s).2
  | .sbrk increment => (mem_sbrk increment s).2
  | .deinit => (mem_deinit s).2

/-- The state after running a sequence of public arena operations from
the uninitialized initial state. -/
def runOps (ops : List MemOp) : MemState :=
  ops.foldl (fun s op => stepOp op s) initialMemState

/-- The arena-bounds invariant: whenever the region is present,
`heap_start ≤ brk ≤ heap_end`. -/
def ArenaBounds (s : MemState) : Prop :=
  ∀ r, s.region = some r → r.heap_start ≤ r.brk ∧ r.brk ≤ r.heap_end

instance (s : MemState) : Decidable (ArenaBounds s) := by
  unfold ArenaBounds
  match s with
  | { region := none, mm_errno := _, diag := _ } =>
    exact .isTrue (by intro r h; cases h)
  | { region := some r0, mm_errno := _, diag := _ } =>
    refine decidable_of_iff (r0.heap_start ≤ r0.brk ∧ r0.brk ≤ r0.heap_end) ?_
    constructor
    · intro h r hr
      cases hr
      exact h
    · intro h
      exact h r0 rfl

/-! ## Helper lemmas -/

/-- Unfolding lemma: `mem_init` on an initialized state. -/
theorem mem_init_some (s : MemState) (r : Region) (hreg : s.region = some r)
    (base : Nat) (size : Int) :
    mem_init base size s = (-1, { s with mm_errno := MM_ERR_INTERNAL }) := by
  unfold mem_init
  rw [hreg]

/-- Unfolding lemma: `mem_init` on an uninitialized state. -/
theorem mem_init_none (s : MemState) (hreg : s.region = none)
    (base : Nat) (size : Int) :
    mem_init base size s =
      if size ≤ 0 then
        (-1, { s with mm_errno := MM_ERR_INVAL,
                      diag := s.diag ++ [arenaSizeDiagLine] })
      else
        (0, { region := some { heap_start := base, brk := base,
                               heap_end := base + roundUpPage size.toNat },
              mm_errno := MM_ERR_NONE,
              diag := s.diag }) := by
  unfold mem_init
  rw [hreg]

/-- Unfolding lemma: `mem_sbrk` on an uninitialized state. -/
theorem mem_sbrk_none (s : MemState) (hreg : s.region = none) (increment : Int) :
    mem_sbrk increment s =
      (MEM_SBRK_FAILED, { s with mm_errno := MM_ERR_INTERNAL }) := by
  unfold mem_sbrk
  rw [hreg]

/-- Unfolding lemma: `mem_sbrk` on an initialized state. -/
theorem mem_sbrk_some (s : MemState) (r : Region) (hreg : s.region = some r)
    (increment : Int) :
    mem_sbrk increment s =
      if (r.brk : Int) + increment < (r.heap_start : Int) then
        (MEM_SBRK_FAILED, { s with mm_errno := MM_ERR_INVAL })
      else if (r.heap_end : Int) ≤ (r.brk : Int) + increment ∧ increment ≠ 0 then
        (MEM_SBRK_FAILED, { s with mm_errno := MM_ERR_NOMEM })
      else
        (r.brk, { s with region := some { r with brk := ((r.brk : Int) + increment).toNat } }) := by
  unfold mem_sbrk
  rw [hreg]

/-- The page-rounded size is at least the requested size. -/
theorem le_roundUpPage (n : Nat) : n ≤ roundUpPage n := by
  unfold roundUpPage PAGE_SIZE
  have hdm := Nat.div_add_mod (n + 4095) 4096
  have hlt : (n + 4095) % 4096 < 4096 := Nat.mod_lt _ (by norm_num)
  omega

/-- One step of any public arena operation preserves the arena-bounds
invariant. -/
theorem arenaBounds_step (op : MemOp) (s : MemState) (h : ArenaBounds s) :
    ArenaBounds (stepOp op s) := by
  intro r' hr'
  cases op with
  | init base size =>
    cases hreg : s.region with
    | some r0 =>
      rw [stepOp, mem_init_some s r0 hreg] at hr'
      exact h r' hr'
    | none =>
      rw [stepOp, mem_init_none s hreg] at hr'
      by_cases hsz : size ≤ 0
      · rw [if_pos hsz] at hr'
        have h' : s.region = some r' := hr'
        rw [hreg] at h'
        cases h'
      · rw [if_neg hsz] at hr'
        have h' : some { heap_start := base, brk := base, heap_end := base + roundUpPage size.toNat } = some r' := hr'
        cases h'
        exact ⟨Nat.le_refl _, Nat.le_add_right _ _⟩
  | sbrk increment =>
    cases hreg : s.region with
    | none =>
      rw [stepOp, mem_sbrk_none s hreg] at hr'
      exact h r' hr'
    | some r0 =>
      rw [stepOp, mem_sbrk_some s r0 hreg] at hr'
      by_cases h1 : (r0.brk : Int) + increment < (r0.heap_start : Int)
      · rw [if_pos h1] at hr'
        exact h r' hr'
      · rw [if_neg h1] at hr'
        by_cases h2 : (r0.heap_end : Int) ≤ (r0.brk : Int) + increment ∧
            increment ≠ 0
        · rw [if_pos h2] at hr'
          exact h r' hr'
        · rw [if_neg h2] at hr'
          have h' : some { r0 with brk := ((r0.brk : Int) + increment).toNat } = some r' := hr'
          cases h'
          obtain ⟨hb1, hb2⟩ := h r0 hreg
          dsimp only
          constructor
          · omega
          · omega
  | deinit =>
    rw [stepOp] at hr'
    have : (none : Option Region) = some r' := hr'
    cases this

/-- The arena-bounds invariant holds along any fold of operations from a
state satisfying it. -/
theorem arenaBounds_foldl (ops : List MemOp) :
    ∀ s : MemState, ArenaBounds s →
      ArenaBounds (ops.foldl (fun s op => stepOp op s) s) := by
  induction ops with
  | nil => intro s h; exact h
  | cons op rest ih =>
    intro s h
    exact ih _ (arenaBounds_step op s h)

/-! ## Claim theorems -/

/-- Claim C1: for every initialized arena (with `heap_start ≤ heap_end`)
and every `increment ≠ 0` with `brk + increment ≥ heap_end`, `mem_sbrk`
returns `MEM_SBRK_FAILED`, sets the error indicator to `NOMEM`, and
leaves the break unchanged; the bound is exclusive, so this covers a
candidate break landing exactly on `heap_end`. -/
theorem mem_sbrk_overflow_nomem (s : MemState) (r : Region) (increment : Int)
    (hreg : s.region = some r) (hse : r.heap_start ≤ r.heap_end)
    (hinc : increment ≠ 0)
    (hover : (r.heap_end : Int) ≤ (r.brk : Int) + increment) :
    (mem_sbrk increment s).1 = MEM_SBRK_FAILED ∧
    (mem_sbrk increment s).2.mm_errno = MM_ERR_NOMEM ∧
    get_mem_brk (mem_sbrk increment s).2 = get_mem_brk s := by
  have hnotlt : ¬ ((r.brk : Int) + increment < (r.heap_start : Int)) := by
    have hse' : (r.heap_start : Int) ≤ (r.heap_end : Int) := by exact_mod_cast hse
    omega
  rw [mem_sbrk_some s r hreg increment, if_neg hnotlt, if_pos ⟨hover, hinc⟩]
  exact ⟨rfl, rfl, rfl⟩

/-- Witness for C1: at a concrete arena `[0, 4096)` with `brk = 0`, the
call `mem_sbrk 4096` lands exactly on `heap_end` and fails with `NOMEM`,
leaving the break unchanged. -/
theorem mem_sbrk_overflow_nomem_witness :
    (mem_sbrk 4096 { region := some { heap_start := 0, brk := 0, heap_end := 4096 }, mm_errno := MM_ERR_NONE, diag := [] }).1 = MEM_SBRK_FAILED ∧
    (mem_sbrk 4096 { region := some { heap_start := 0, brk := 0, heap_end := 4096 }, mm_errno := MM_ERR_NONE, diag := [] }).2.mm_errno = MM_ERR_NOMEM ∧
    get_mem_brk (mem_sbrk 4096 { region := some { heap_start := 0, brk := 0, heap_end := 4096 }, mm_errno := MM_ERR_NONE, diag := [] }).2 = get_mem_brk { region := some { heap_start := 0, brk := 0, heap_end := 4096 }, mm_errno := MM_ERR_NONE, diag := [] } :=
  mem_sbrk_overflow_nomem _ _ 4096 rfl (by decide) (by decide) (by decide)

/-- Claim C2: for every initialized arena with `heap_start ≤ brk`, error
indicator `NONE`, and `heap_start ≤ brk + increment < heap_end` (or
`increment = 0`), `mem_sbrk` succeeds: it returns the pre-call break,
sets `brk` to `brk + increment`, and leaves the error indicator at
`NONE`; `mem_sbrk 0` returns the current break and changes no state. -/
theorem mem_sbrk_success_ok (s : MemState) (r : Region) (increment : Int)
    (hreg : s.region = some r) (hb : r.heap_start ≤ r.brk)
    (herr : s.mm_errno = MM_ERR_NONE)
    (hok : ((r.heap_start : Int) ≤ (r.brk : Int) + increment ∧
            (r.brk : Int) + increment < (r.heap_end : Int)) ∨ increment = 0) :
    (mem_sbrk increment s).1 = r.brk ∧
    get_mem_brk (mem_sbrk increment s).2 = some ((r.brk : Int) + increment).toNat ∧
    ((((r.brk : Int) + increment).toNat : Int) = (r.brk : Int) + increment) ∧
    (mem_sbrk increment s).2.mm_errno = MM_ERR_NONE ∧
    (increment = 0 → (mem_sbrk increment s).2 = s) := by
  have hb' : (r.heap_start : Int) ≤ (r.brk : Int) := by exact_mod_cast hb
  have hnotlt : ¬ ((r.brk : Int) + increment < (r.heap_start : Int)) := by
    rcases hok with ⟨h1, _⟩ | h0
    · omega
    · omega
  have hnotover : ¬ ((r.heap_end : Int) ≤ (r.brk : Int) + increment ∧ increment ≠ 0) := by
    rintro ⟨hge, hne⟩
    rcases hok with ⟨_, h2⟩ | h0
    · omega
    · exact hne h0
  rw [mem_sbrk_some s r hreg increment, if_neg hnotlt, if_neg hnotover]
  refine ⟨rfl, rfl, by omega, herr, ?_⟩
  intro h0
  subst h0
  have hbrk0 : ((r.brk : Int) + 0).toNat = r.brk := by omega
  rw [hbrk0]
  have heta : ({ r with brk := r.brk } : Region) = r := rfl
  rw [heta, ← hreg]

/-- Witness for C2: at a concrete arena `[0, 4096)` with `brk = 0` and
errno `NONE`, `mem_sbrk 1024` returns the old break `0` and moves the
break to `1024`. -/
theorem mem_sbrk_success_ok_witness :
    (mem_sbrk 1024 { region := some { heap_start := 0, brk := 0, heap_end := 4096 }, mm_errno := MM_ERR_NONE, diag := [] }).1 = 0 ∧
    get_mem_brk (mem_sbrk 1024 { region := some { heap_start := 0, brk := 0, heap_end := 4096 }, mm_errno := MM_ERR_NONE, diag := [] }).2 = some (((0 : Nat) : Int) + 1024).toNat ∧
    (((((0 : Nat) : Int) + 1024).toNat : Int) = ((0 : Nat) : Int) + 1024) ∧
    (mem_sbrk 1024 { region := some { heap_start := 0, brk := 0, heap_end := 4096 }, mm_errno := MM_ERR_NONE, diag := [] }).2.mm_errno = MM_ERR_NONE :=
  have h := mem_sbrk_success_ok { region := some { heap_start := 0, brk := 0, heap_end := 4096 }, mm_errno := MM_ERR_NONE, diag := [] } { heap_start := 0, brk := 0, heap_end := 4096 } 1024 rfl (by decide) rfl (Or.inl (by decide))
  ⟨h.1, h.2.1, h.2.2.1, h.2.2.2.1⟩

/-- Claim C4: for every initialized arena and every negative increment
with `brk + increment < heap_start`, `mem_sbrk` returns
`MEM_SBRK_FAILED`, sets the error indicator to `INVAL`, and leaves the
break unchanged. -/
theorem mem_sbrk_underflow_inval (s : MemState) (r : Region) (increment : Int)
    (hreg : s.region = some r) (_hneg : increment < 0)
    (hunder : (r.brk : Int) + increment < (r.heap_start : Int)) :
    (mem_sbrk increment s).1 = MEM_SBRK_FAILED ∧
    (mem_sbrk increment s).2.mm_errno = MM_ERR_INVAL ∧
    get_mem_brk (mem_sbrk increment s).2 = get_mem_brk s := by
  rw [mem_sbrk_some s r hreg increment, if_pos hunder]
  exact ⟨rfl, rfl, rfl⟩

/-- Witness for C4: on a fresh arena `[0, 8192)` with `brk = 0`,
`mem_sbrk (-4096)` underflows and fails with `INVAL`, leaving the break
unchanged. -/
theorem mem_sbrk_underflow_inval_witness :
    (mem_sbrk (-4096) { region := some { heap_start := 0, brk := 0, heap_end := 8192 }, mm_errno := MM_ERR_NONE, diag := [] }).1 = MEM_SBRK_FAILED ∧
    (mem_sbrk (-4096) { region := some { heap_start := 0, brk := 0, heap_end := 8192 }, mm_errno := MM_ERR_NONE, diag := [] }).2.mm_errno = MM_ERR_INVAL ∧
    get_mem_brk (mem_sbrk (-4096) { region := some { heap_start := 0, brk := 0, heap_end := 8192 }, mm_errno := MM_ERR_NONE, diag := [] }).2 = get_mem_brk { region := some { heap_start := 0, brk := 0, heap_end := 8192 }, mm_errno := MM_ERR_NONE, diag := [] } :=
  mem_sbrk_underflow_inval _ _ (-4096) rfl (by decide) (by decide)

/-- Claim C3 (amended): for every sequence of public arena operations
run from the initial state, `heap_start ≤ brk ≤ heap_end` holds whenever
the arena is initialized; and immediately after a successful `mem_init`
the break equals `heap_start` (the original claim's "equality only
immediately after init" fails, see the counterexample). -/
theorem arena_bounds_invariant :
    (∀ ops : List MemOp, ArenaBounds (runOps ops)) ∧
    (∀ (base : Nat) (size : Int) (s : MemState), s.region = none → 0 < size →
      (mem_init base size s).1 = 0 ∧
      get_mem_brk (mem_init base size s).2 = get_mem_heap_start (mem_init base size s).2 ∧
      get_mem_heap_start (mem_init base size s).2 ≠ none) := by
  constructor
  · intro ops
    exact arenaBounds_foldl ops initialMemState (by intro r h; cases h)
  · intro base size s hreg hpos
    have hsz : ¬ size ≤ 0 := by omega
    rw [mem_init_none s hreg base size, if_neg hsz]
    exact ⟨rfl, rfl, by simp [get_mem_heap_start]⟩

/-- Witness for C3: the invariant evaluated on a concrete operation
sequence, and the init clause at `base = 0`, `size = 4096` from the
initial state. -/
theorem arena_bounds_invariant_witness :
    ArenaBounds (runOps [MemOp.init 0 4096, MemOp.sbrk 1024, MemOp.sbrk (-512)]) ∧
    ((mem_init 0 4096 initialMemState).1 = 0 ∧
     get_mem_brk (mem_init 0 4096 initialMemState).2 = get_mem_heap_start (mem_init 0 4096 initialMemState).2 ∧
     get_mem_heap_start (mem_init 0 4096 initialMemState).2 ≠ none) :=
  ⟨arena_bounds_invariant.1 [MemOp.init 0 4096, MemOp.sbrk 1024, MemOp.sbrk (-512)],
   arena_bounds_invariant.2 0 4096 initialMemState rfl (by decide)⟩

/-- Counterexample to C3 as stated: after `init(4096)` the call
`mem_sbrk 0` is a successful public arena call that is not an init, and
immediately after it the break still equals `heap_start` — so equality
with `heap_start` does not hold *only* immediately after arena init.
(The spec's own scenario 5, `sbrk(4095); sbrk(-4095)`, gives a second
counterexample with nonzero increments.) -/
theorem arena_brk_eq_start_after_non_init_call :
    (mem_sbrk 0 (runOps [MemOp.init 0 4096])).1 ≠ MEM_SBRK_FAILED ∧
    runOps [MemOp.init 0 4096, MemOp.sbrk 0] = (mem_sbrk 0 (runOps [MemOp.init 0 4096])).2 ∧
    get_mem_brk (runOps [MemOp.init 0 4096, MemOp.sbrk 0]) = get_mem_heap_start (runOps [MemOp.init 0 4096, MemOp.sbrk 0]) ∧
    get_mem_heap_start (runOps [MemOp.init 0 4096, MemOp.sbrk 0]) ≠ none := by
  refine ⟨by decide, rfl, rfl, by decide⟩

/-- Claim C5: lifecycle rejection — `mem_init` on an already-initialized
arena returns `-1` with `INTERNAL` and leaves the region unchanged, and
`mem_sbrk` before init returns `MEM_SBRK_FAILED` with `INTERNAL` while
the break stays absent. -/
theorem lifecycle_rejection :
    (∀ (base : Nat) (size : Int) (s : MemState) (r : Region), s.region = some r →
      (mem_init base size s).1 = -1 ∧
      (mem_init base size s).2.mm_errno = MM_ERR_INTERNAL ∧
      (mem_init base size s).2.region = s.region) ∧
    (∀ (increment : Int) (s : MemState), s.region = none →
      (mem_sbrk increment s).1 = MEM_SBRK_FAILED ∧
      (mem_sbrk increment s).2.mm_errno = MM_ERR_INTERNAL ∧
      get_mem_brk s = none ∧
      get_mem_brk (mem_sbrk increment s).2 = none) := by
  constructor
  · intro base size s r hreg
    rw [mem_init_some s r hreg base size]
    exact ⟨rfl, rfl, rfl⟩
  · intro increment s hreg
    rw [mem_sbrk_none s hreg increment]
    refine ⟨rfl, rfl, ?_, ?_⟩
    · simp [get_mem_brk, hreg]
    · simp [get_mem_brk, hreg]

/-- Witness for C5: a second `mem_init 0 4096` right after a successful
one fails with `INTERNAL`, and `mem_sbrk 1024` on the initial state
fails with `INTERNAL` and an absent break. -/
theorem lifecycle_rejection_witness :
    ((mem_init 0 4096 (runOps [MemOp.init 0 4096])).1 = -1 ∧
     (mem_init 0 4096 (runOps [MemOp.init 0 4096])).2.mm_errno = MM_ERR_INTERNAL ∧
     (mem_init 0 4096 (runOps [MemOp.init 0 4096])).2.region = (runOps [MemOp.init 0 4096]).region) ∧
    ((mem_sbrk 1024 initialMemState).1 = MEM_SBRK_FAILED ∧
     (mem_sbrk 1024 initialMemState).2.mm_errno = MM_ERR_INTERNAL ∧
     get_mem_brk initialMemState = none ∧
     get_mem_brk (mem_sbrk 1024 initialMemState).2 = none) :=
  ⟨lifecycle_rejection.1 0 4096 (runOps [MemOp.init 0 4096]) { heap_start := 0, brk := 0, heap_end := 4096 } (by decide),
   lifecycle_rejection.2 1024 initialMemState rfl⟩

/-- Claim C6: for every `size > 0`, `mem_init` on an uninitialized arena
returns `0`, sets `heap_start` (non-absent) with `brk = heap_start`,
sets `heap_end` with `heap_end - heap_start ≥ size`, and clears the
error indicator to `NONE`. -/
theorem mem_init_success_ok (base : Nat) (size : Int) (s : MemState)
    (hreg : s.region = none) (hpos : 0 < size) :
    (mem_init base size s).1 = 0 ∧
    get_mem_heap_start (mem_init base size s).2 = some base ∧
    get_mem_brk (mem_init base size s).2 = some base ∧
    (∃ e : Nat, get_mem_heap_end (mem_init base size s).2 = some e ∧
      base ≤ e ∧ size ≤ ((e - base : Nat) : Int)) ∧
    (mem_init base size s).2.mm_errno = MM_ERR_NONE := by
  have hsz : ¬ size ≤ 0 := by omega
  rw [mem_init_none s hreg base size, if_neg hsz]
  refine ⟨rfl, rfl, rfl, ⟨base + roundUpPage size.toNat, rfl, Nat.le_add_right _ _, ?_⟩, rfl⟩
  have h1 : size.toNat ≤ roundUpPage size.toNat := le_roundUpPage _
  have h2 : base + roundUpPage size.toNat - base = roundUpPage size.toNat := by omega
  rw [h2]
  omega

/-- Witness for C6: `mem_init 0 4096` on the initial state succeeds with
`heap_start = brk = 0`, a `heap_end` at least `4096` past `heap_start`,
and errno `NONE`. -/
theorem mem_init_success_ok_witness :
    (mem_init 0 4096 initialMemState).1 = 0 ∧
    get_mem_heap_start (mem_init 0 4096 initialMemState).2 = some 0 ∧
    get_mem_brk (mem_init 0 4096 initialMemState).2 = some 0 ∧
    (∃ e : Nat, get_mem_heap_end (mem_init 0 4096 initialMemState).2 = some e ∧
      0 ≤ e ∧ (4096 : Int) ≤ ((e - 0 : Nat) : Int)) ∧
    (mem_init 0 4096 initialMemState).2.mm_errno = MM_ERR_NONE :=
  mem_init_success_ok 0 4096 initialMemState rfl (by decide)

/-- Claim C7: `mem_init` with non-positive size on an uninitialized
arena returns `-1`, sets the error indicator to `INVAL`, appends exactly
one diagnostic line containing the literal substring
`arena size must be > 0`, and leaves all three arena fields absent;
no other arena operation (a successful or already-initialized `mem_init`,
`mem_sbrk`, `mem_deinit`) writes to the diagnostic sink. -/
theorem mem_init_nonpositive_diag :
    (∀ (base : Nat) (size : Int) (s : MemState), s.region = none → size ≤ 0 →
      (mem_init base size s).1 = -1 ∧
      (mem_init base size s).2.mm_errno = MM_ERR_INVAL ∧
      (mem_init base size s).2.diag = s.diag ++ [arenaSizeDiagLine] ∧
      hasSubstr arenaSizeDiagLine "arena size must be > 0" ∧
      get_mem_heap_start (mem_init base size s).2 = none ∧
      get_mem_brk (mem_init base size s).2 = none ∧
      get_mem_heap_end (mem_init base size s).2 = none) ∧
    (∀ (base : Nat) (size : Int) (s : MemState), 0 < size ∨ s.region ≠ none →
      (mem_init base size s).2.diag = s.diag) ∧
    (∀ (increment : Int) (s : MemState), (mem_sbrk increment s).2.diag = s.diag) ∧
    (∀ s : MemState, (mem_deinit s).2.diag = s.diag) := by
  refine ⟨?_, ?_, ?_, ?_⟩
  · intro base size s hreg hsz
    rw [mem_init_none s hreg base size, if_pos hsz]
    refine ⟨rfl, rfl, rfl, ⟨"", "", by decide⟩, ?_, ?_, ?_⟩
    · simp [get_mem_heap_start, hreg]
    · simp [get_mem_brk, hreg]
    · simp [get_mem_heap_end, hreg]
  · intro base size s h
    cases hreg : s.region with
    | some r => rw [mem_init_some s r hreg base size]
    | none =>
      rcases h with hpos | hne
      · rw [mem_init_none s hreg base size, if_neg (by omega)]
      · exact absurd hreg hne
  · intro increment s
    cases hreg : s.region with
    | none => rw [mem_sbrk_none s hreg increment]
    | some r =>
      rw [mem_sbrk_some s r hreg increment]
      by_cases h1 : (r.brk : Int) + increment < (r.heap_start : Int)
      · rw [if_pos h1]
      · rw [if_neg h1]
        by_cases h2 : (r.heap_end : Int) ≤ (r.brk : Int) + increment ∧ increment ≠ 0
        · rw [if_pos h2]
        · rw [if_neg h2]
  · intro s
    rfl

/-- Witness for C7: `mem_init 0 0` from the initial state fails with
`INVAL`, writes the single diagnostic line, and leaves all accessors
absent. -/
theorem mem_init_nonpositive_diag_witness :
    (mem_init 0 0 initialMemState).1 = -1 ∧
    (mem_init 0 0 initialMemState).2.mm_errno = MM_ERR_INVAL ∧
    (mem_init 0 0 initialMemState).2.diag = initialMemState.diag ++ [arenaSizeDiagLine] ∧
    hasSubstr arenaSizeDiagLine "arena size must be > 0" ∧
    get_mem_heap_start (mem_init 0 0 initialMemState).2 = none ∧
    get_mem_brk (mem_init 0 0 initialMemState).2 = none ∧
    get_mem_heap_end (mem_init 0 0 initialMemState).2 = none :=
  mem_init_nonpositive_diag.1 0 0 initialMemState rfl (by decide)

/-- Claim C8: `mem_deinit` is idempotent — it returns `0` on any state
(initialized or not), leaves all three accessors absent afterwards,
leaves the error indicator unchanged, and a second call returns the same
result and state as the first. -/
theorem mem_deinit_idempotent (s : MemState) :
    (mem_deinit s).1 = 0 ∧
    get_mem_heap_start (mem_deinit s).2 = none ∧
    get_mem_brk (mem_deinit s).2 = none ∧
    get_mem_heap_end (mem_deinit s).2 = none ∧
    (mem_deinit s).2.mm_errno = s.mm_errno ∧
    mem_deinit (mem_deinit s).2 = mem_deinit s :=
  ⟨rfl, rfl, rfl, rfl, rfl, rfl⟩

/-- Claim C9: `MEM_SBRK_FAILED` is the all-ones pointer, i.e. `-1` cast
to a 64-bit pointer; `mem_sbrk` returns either exactly this sentinel (on
failure) or the pre-call break (on success), never any other sentinel;
and the sentinel is distinct from every address inside a region whose
`heap_end` is below the all-ones address. -/
theorem mem_sbrk_failure_sentinel :
    MEM_SBRK_FAILED = ((-1 : Int) % ((2 : Int) ^ PTR_BITS)).toNat ∧
    (∀ (increment : Int) (s : MemState),
      (mem_sbrk increment s).1 = MEM_SBRK_FAILED ∨
      get_mem_brk s = some (mem_sbrk increment s).1) ∧
    (∀ (s : MemState) (r : Region), s.region = some r →
      r.heap_end < MEM_SBRK_FAILED →
      ∀ a : Nat, r.heap_start ≤ a → a ≤ r.heap_end → a ≠ MEM_SBRK_FAILED) := by
  refine ⟨by decide, ?_, ?_⟩
  · intro increment s
    cases hreg : s.region with
    | none =>
      rw [mem_sbrk_none s hreg increment]
      exact Or.inl rfl
    | some r =>
      rw [mem_sbrk_some s r hreg increment]
      by_cases h1 : (r.brk : Int) + increment < (r.heap_start : Int)
      · rw [if_pos h1]
        exact Or.inl rfl
      · rw [if_neg h1]
        by_cases h2 : (r.heap_end : Int) ≤ (r.brk : Int) + increment ∧ increment ≠ 0
        · rw [if_pos h2]
          exact Or.inl rfl
        · rw [if_neg h2]
          exact Or.inr (by simp [get_mem_brk, hreg])
  · intro s r _ hlt a _ h2
    omega

/-- Witness for C9: `mem_sbrk 0` on the uninitialized initial state
falls in one of the two allowed shapes, and address `42` inside the
region `[0, 4096)` is distinct from the sentinel. -/
theorem mem_sbrk_failure_sentinel_witness :
    ((mem_sbrk 0 initialMemState).1 = MEM_SBRK_FAILED ∨
     get_mem_brk initialMemState = some (mem_sbrk 0 initialMemState).1) ∧
    (42 : Nat) ≠ MEM_SBRK_FAILED :=
  ⟨mem_sbrk_failure_sentinel.2.1 0 initialMemState,
   mem_sbrk_failure_sentinel.2.2 { region := some { heap_start := 0, brk := 0, heap_end := 4096 }, mm_errno := MM_ERR_NONE, diag := [] } { heap_start := 0, brk := 0, heap_end := 4096 } rfl (by decide) 42 (by decide) (by decide)⟩

/-- Claim C10: a failed `mem_init` (whether from a non-positive size or
from an already-initialized arena) never mutates the arena fields; in
particular, after a failed first init on a fresh state all three
accessors still return absent, and a subsequent `mem_init` with a
positive size then succeeds with the error indicator at `NONE`, without
an intervening `mem_deinit`. -/
theorem mem_init_failure_preserves_state :
    (∀ (base : Nat) (size : Int) (s : MemState),
      (mem_init base size s).1 = -1 →
      (mem_init base size s).2.region = s.region ∧
      get_mem_heap_start (mem_init base size s).2 = get_mem_heap_start s ∧
      get_mem_brk (mem_init base size s).2 = get_mem_brk s ∧
      get_mem_heap_end (mem_init base size s).2 = get_mem_heap_end s) ∧
    (∀ (base : Nat) (size : Int) (s : MemState), s.region = none → size ≤ 0 →
      get_mem_heap_start (mem_init base size s).2 = none ∧
      get_mem_brk (mem_init base size s).2 = none ∧
      get_mem_heap_end (mem_init base size s).2 = none ∧
      (∀ (base2 : Nat) (size2 : Int), 0 < size2 →
        (mem_init base2 size2 (mem_init base size s).2).1 = 0 ∧
        (mem_init base2 size2 (mem_init base size s).2).2.mm_errno = MM_ERR_NONE)) := by
  constructor
  · intro base size s hfail
    cases hreg : s.region with
    | some r =>
      rw [mem_init_some s r hreg base size]
      exact ⟨hreg, rfl, rfl, rfl⟩
    | none =>
      rw [mem_init_none s hreg base size] at hfail ⊢
      by_cases hsz : size ≤ 0
      · rw [if_pos hsz]
        exact ⟨hreg, rfl, rfl, rfl⟩
      · rw [if_neg hsz] at hfail
        have h0 : (0 : Int) = -1 := hfail
        exact absurd h0 (by decide)
  · intro base size s hreg hsz
    rw [mem_init_none s hreg base size, if_pos hsz]
    refine ⟨?_, ?_, ?_, ?_⟩
    · simp [get_mem_heap_start, hreg]
    · simp [get_mem_brk, hreg]
    · simp [get_mem_heap_end, hreg]
    · intro base2 size2 hpos2
      have hreg2 : ({ s with mm_errno := MM_ERR_INVAL, diag := s.diag ++ [arenaSizeDiagLine] } : MemState).region = none := hreg
      rw [mem_init_none _ hreg2 base2 size2, if_neg (by omega)]
      exact ⟨rfl, rfl⟩

/-- Witness for C10: `mem_init 0 0` on the initial state fails without
touching the region, and `mem_init 0 4096` immediately afterwards (no
`mem_deinit` in between) succeeds with errno `NONE`. -/
theorem mem_init_failure_preserves_state_witness :
    (mem_init 0 0 initialMemState).2.region = initialMemState.region ∧
    get_mem_heap_start (mem_init 0 0 initialMemState).2 = none ∧
    (mem_init 0 4096 (mem_init 0 0 initialMemState).2).1 = 0 ∧
    (mem_init 0 4096 (mem_init 0 0 initialMemState).2).2.mm_errno = MM_ERR_NONE :=
  ⟨(mem_init_failure_preserves_state.1 0 0 initialMemState (by decide)).1,
   (mem_init_failure_preserves_state.2 0 0 initialMemState rfl (by decide)).1,
   ((mem_init_failure_preserves_state.2 0 0 initialMemState rfl (by decide)).2.2.2 0 4096 (by decide)).1,
   ((mem_init_failure_preserves_state.2 0 0 initialMemState rfl (by decide)).2.2.2 0 4096 (by decide)).2⟩

end Armalloc
